import Mathlib

set_option maxRecDepth 8192

/-!
# HRV-Wireless serial decoder and MQTT publisher: a verification model

This file is a shallow embedding of the protocol/connectivity logic of
`hrv.ino` (the single source file of the HRV-Wireless repository): the
byte-at-a-time frame decoder of `loop()`, the checksum validation, the
hex round-trip temperature decoding (`decToHex` / `hexToDec`), and the
change-detected publish logic of `SendMQTTMessage()`.

Modelling conventions:

* Machine bytes and small integers are `Nat` / `Int`, with `% 256` made
  explicit where the C code stores into a `byte` or casts.
* The `float` temperature (`fHRVTemp` and the last-published values)
  is always an exact integer multiple of 1/16 of a degree: it is
  produced as `hexToDec(..) * 0.0625` (a 16-bit integer divided by 16),
  rounded to halves of a degree by `SendMQTTMessage`, or set to the
  integer 255.  Every float operation the source performs on it is
  exact in IEEE single precision (scaling by the powers of two 0.0625,
  2 and 1/2, adding 0.5 to a value of at most 13 bits, and casts of
  integers below 2^24).  The model therefore stores these values
  exactly, as the `Int` number of sixteenths of a degree: a model field
  holds 16 times the source's float value.  Comparisons between two
  temperatures translate directly; comparisons between a temperature
  and an `int` variable (the fan-status conditions) carry an explicit
  `16 *` on the integer side.
* The `int` truncation cast `(int) x` is truncation toward zero,
  modelled by `cTruncDiv`.
* Arduino `String` values built by `decToHex` are modelled as `List Char`.
* The 10-byte array `inData` is modelled as a total map `Nat → Nat`;
  stores write `value % 256` exactly as assigning an `int` to a `byte`
  cell does.
* The source declares globals `iHRVFanSpeed` / `iHRVLastFanSpeed` but at
  its use sites writes the abbreviated names `iFanSpeed` / `iHRVLastFan`
  for the same two quantities (the current fan speed and the last
  published fan speed); the model uses one field for each quantity,
  named after the use sites: `iFanSpeed` and `iHRVLastFanSpeed`.
* MQTT publishes are recorded as a list of topic/payload pairs, in
  program order.  Temperature and number payloads are recorded as the
  published value (their decimal rendering carries no extra
  information); the fan-status payload is the actual string built by
  the source.  The periodic "alive" status publish is time-driven and
  outside the byte-level model.
* `runBytes` models the steady state in which WiFi and the MQTT broker
  are connected (`WiFi.status() == WL_CONNECTED && mqttClient.connected()`),
  which is the regime all publish-related claims speak about.
-/

/-- The MQTT topics of the fixed publish set (`OPENHABHRVSUB*`). -/
inductive Topic where
  | status
  | housetemp
  | rooftemp
  | controltemp
  | fanspeed
deriving DecidableEq, Repr

/-- A published payload: a temperature value (in sixteenths of a
degree), an integer value, or a literal string (the fan-status
message). -/
inductive Payload where
  | temp (sixteenths : Int)
  | num (n : Int)
  | text (s : String)
deriving DecidableEq, Repr

/-- One MQTT publish: topic plus payload. -/
structure Publish where
  topic : Topic
  payload : Payload
deriving DecidableEq, Repr

/-- A decoded frame, observed at the point where `loop()` has validated
the captured data and processes it (lines 293-336): the values of the
globals `eTempLoc`, `fHRVTemp` (before `SendMQTTMessage` rounds it),
`iFanSpeed` and `iHRVControlTemp` right after field extraction. -/
structure Frame where
  loc : Nat
  temp : Int
  fan : Int
  control : Int
deriving DecidableEq, Repr

/-- The mutable global state of `hrv.ino` that the decoder and
`SendMQTTMessage` read and write.  `fHRVTemp`, `fHRVLastRoof` and
`fHRVLastHouse` hold 16 times the source's float value (the exact
number of sixteenths of a degree). -/
structure HState where
  bStarted : Bool
  bEnded : Bool
  bIndex : Nat
  bChecksum : Nat
  inData : Nat → Nat
  eTempLoc : Nat
  fHRVTemp : Int
  iFanSpeed : Int
  iHRVControlTemp : Int
  fHRVLastRoof : Int
  fHRVLastHouse : Int
  iHRVLastControl : Int
  iHRVLastFanSpeed : Int

/-- Point update of the byte-array model. -/
def updArr (f : Nat → Nat) (i v : Nat) : Nat → Nat :=
  fun j => if j = i then v else f j

/-- Constant `MSGSTARTSTOP`, the shared start/stop marker byte `0x7E`. -/
def MSGSTARTSTOP : Nat := 126

/-- Constant `HRVROOF`, the roof location tag `0x30`. -/
def HRVROOF : Nat := 48

/-- Constant `HRVHOUSE`, the house location tag `0x31`. -/
def HRVHOUSE : Nat := 49

/-- The state reached by global zero-initialisation plus `setup()`
(which sets `bIndex = 0` and `bChecksum = 0`). -/
def hrvInit : HState :=
  { bStarted := false
    bEnded := false
    bIndex := 0
    bChecksum := 0
    inData := fun _ => 0
    eTempLoc := 0
    fHRVTemp := 0
    iFanSpeed := 0
    iHRVControlTemp := 0
    fHRVLastRoof := 0
    fHRVLastHouse := 0
    iHRVLastControl := 0
    iHRVLastFanSpeed := 0 }

/-- The reset performed when the MQTT connection is re-established
(lines 156-161): every last-published variable is set to the sentinel
255 "to force a resend on next connection". -/
def mqttReconnect (s : HState) : HState :=
  { s with iHRVLastFanSpeed := 255
           iHRVLastControl := 255
           fHRVLastRoof := 255 * 16
           fHRVLastHouse := 255 * 16 }

/-- Outcome of one iteration of the serial-read `while` body: continue
reading, or `break` out of the loop. -/
inductive StepOut where
  | cont (s : HState)
  | brk (s : HState)

/-- The state carried by a `StepOut`. -/
def StepOut.state : StepOut → HState
  | .cont s => s
  | .brk s => s

/-- The data-grabbing half of the `while` body (lines 229-240): if
capture has started, store the byte at `inData[bIndex]` and increment
`bIndex` (the `sizeof(inChar) > 0` guard is always true). -/
def storePhase (s : HState) (inChar : Nat) : StepOut :=
  if s.bStarted then
    .cont { s with inData := updArr s.inData s.bIndex (inChar % 256)
                   bIndex := s.bIndex + 1 }
  else
    .cont s

/-- One full iteration of the serial-read `while` body (lines 207-245)
for one incoming byte: the marker / overflow test of line 213, then the
data grab.  Note that when a marker begins a capture the marker byte
itself is stored at `inData[0]`, and that `bIndex > 8` (a full buffer)
is treated exactly like an end marker. -/
def loopStep (s : HState) (inChar : Nat) : StepOut :=
  if inChar = MSGSTARTSTOP ∨ s.bIndex > 8 then
    if s.bIndex = 0 then
      storePhase { s with bStarted := true } inChar
    else
      .brk { s with bChecksum := s.bIndex - 1, bEnded := true }
  else
    storePhase s inChar

/-- Drain the available serial bytes through the `while` loop until a
`break` or until no byte is left; returns the new state and the bytes
not yet consumed. -/
def drainBytes : HState → List Nat → HState × List Nat
  | s, [] => (s, [])
  | s, c :: rest =>
    match loopStep s c with
    | .brk s1 => (s1, rest)
    | .cont s1 => drainBytes s1 rest

/-- Value of `iChar` after the checksum loop of lines 259-267: starting from 0,
subtract `inData[iPos]` for `iPos = 1 .. bChecksum-1`. -/
def subRange (f : Nat → Nat) : Nat → Int
  | 0 => 0
  | n + 1 => subRange f n - (if n = 0 then 0 else (f n : Int))

/-- The character `String(x, HEX)` uses for one hex digit
(lowercase, as Arduino's `String` does). -/
def hexChar (n : Nat) : Char :=
  if n < 10 then Char.ofNat (48 + n) else Char.ofNat (87 + n)

/-- Digit-extraction loop of `String(decValue, HEX)`: most significant
first, with `fuel ≥ n` sufficient for termination. -/
def natToHexAux : Nat → Nat → List Char → List Char
  | 0, _, acc => acc
  | fuel + 1, n, acc =>
    if n = 0 then acc else natToHexAux fuel (n / 16) (hexChar (n % 16) :: acc)

/-- Rendering of `String(decValue, HEX)`: the hex digits with no leading zeros,
and `"0"` for zero. -/
def natToHex (n : Nat) : List Char :=
  if n = 0 then [hexChar 0] else natToHexAux n n []

/-- The padding loop of `decToHex` (line 365): prepend `'0'` while the
string is shorter than `desiredStringLength`. -/
def padLeftAux : Nat → List Char → Nat → List Char
  | 0, l, _ => l
  | fuel + 1, l, n => if l.length < n then padLeftAux fuel ('0' :: l) n else l

/-- The function `decToHex(decValue, desiredStringLength)` (lines 361-368). -/
def decToHex (decValue : Nat) (desiredStringLength : Nat) : List Char :=
  padLeftAux desiredStringLength (natToHex decValue) desiredStringLength

/-- Arduino's integer `map(x, in_min, in_max, out_min, out_max)`. -/
def arduinoMap (x inMin inMax outMin outMax : Int) : Int :=
  (x - inMin) * (outMax - outMin) / (inMax - inMin) + outMin

/-- Arduino's `constrain(x, a, b)`. -/
def arduinoConstrain (x a b : Int) : Int := min b (max a x)

/-- The per-character body of `hexToDec` (lines 382-386): ASCII code,
the three range remaps, then `constrain(.., 0, 15)`. -/
def hexCharVal (c : Char) : Int :=
  let x0 : Int := c.toNat
  let x1 := if 48 ≤ x0 ∧ x0 ≤ 57 then arduinoMap x0 48 57 0 9 else x0
  let x2 := if 65 ≤ x1 ∧ x1 ≤ 70 then arduinoMap x1 65 70 10 15 else x1
  let x3 := if 97 ≤ x2 ∧ x2 ≤ 102 then arduinoMap x2 97 102 10 15 else x2
  arduinoConstrain x3 0 15

/-- The function `hexToDec(hexString)` (lines 374-392): fold the digits into an
`unsigned int` accumulator (hence the explicit `% 2^32`). -/
def hexToDec (s : List Char) : Nat :=
  s.foldl (fun decValue c => (decValue * 16 + (hexCharVal c).toNat) % 4294967296) 0

/-- Truncating division: `cTruncDiv num den` (for `den > 0`) is the exact rational
`num / den` truncated toward zero: the behaviour of C's `(int)` cast on
a finite float value. -/
def cTruncDiv (num den : Int) : Int :=
  if 0 ≤ num then num / den else -((-num) / den)

/-- Lines 405-407 of `SendMQTTMessage`: round the temperature to the
nearest 0.5 degree, `iHRVTemp = (int)((fHRVTemp * 2) + 0.5);
fHRVTemp = (float) iHRVTemp / 2;`.  With `fHRVTemp = k/16` degrees the
cast argument is the exact rational `(2*k + 8)/16`, and the resulting
`iHRVTemp / 2` degrees is `iHRVTemp * 8` sixteenths. -/
def roundedTemp (k : Int) : Int := cTruncDiv (2 * k + 8) 16 * 8

/-- The checksum validation block of `loop()` (lines 248-290), entered
when `bStarted && bEnded && bChecksum > 0`.  Returns the new state and
whether the frame was rejected (state reset and `hrvSerial.flush()`
performed). -/
def validateStep (s : HState) : HState × Bool :=
  if s.bStarted = true ∧ s.bEnded = true ∧ s.bChecksum > 0 then
    let bCalc : Nat := ((subRange s.inData s.bChecksum) % 256).toNat
    let sCalc := decToHex bCalc 2
    let bCheck : Nat := s.inData s.bChecksum % 256
    let sCheck := decToHex bCheck 2
    if sCalc ≠ sCheck ∨ s.bIndex < 6 then
      ({ s with bStarted := false, bEnded := false, bIndex := 0, bChecksum := 0 }, true)
    else
      ({ s with bChecksum := 0 }, false)
  else
    (s, false)

/-- The field-extraction loop of lines 305-321 plus the temperature
computation of lines 325-326.  Position `iPos` of the loop runs from 1
to `bIndex`; each positional branch therefore fires exactly when its
position is at most `bIndex`.  `sHexPartOne`/`sHexPartTwo` are local
`String`s, empty unless assigned. -/
def extractFields (s : HState) : HState :=
  let eL := if 1 ≤ s.bIndex then s.inData 1 % 256 else s.eTempLoc
  let sHexPartOne := if 2 ≤ s.bIndex then decToHex (s.inData 2 % 256) 2 else []
  let sHexPartTwo := if 3 ≤ s.bIndex then decToHex (s.inData 3 % 256) 2 else []
  let fan := if eL = HRVHOUSE ∧ 4 ≤ s.bIndex then ((s.inData 4 % 256 : Nat) : Int) else s.iFanSpeed
  let ctl := if eL = HRVHOUSE ∧ 5 ≤ s.bIndex then ((s.inData 5 % 256 : Nat) : Int) else s.iHRVControlTemp
  { s with eTempLoc := eL
           iFanSpeed := fan
           iHRVControlTemp := ctl
           fHRVTemp := (hexToDec (sHexPartOne ++ sHexPartTwo) : Int) }

/-- The house/roof temperature block of `SendMQTTMessage`
(lines 412-438): publish the rounded temperature for the frame's
location only if it differs from the last published one. -/
def tempStep (s : HState) : HState × List Publish :=
  if s.eTempLoc = HRVHOUSE then
    if s.fHRVTemp ≠ s.fHRVLastHouse then
      ({ s with fHRVLastHouse := s.fHRVTemp }, [⟨Topic.housetemp, Payload.temp s.fHRVTemp⟩])
    else (s, [])
  else if s.eTempLoc = HRVROOF then
    if s.fHRVTemp ≠ s.fHRVLastRoof then
      ({ s with fHRVLastRoof := s.fHRVTemp }, [⟨Topic.rooftemp, Payload.temp s.fHRVTemp⟩])
    else (s, [])
  else (s, [])

/-- The control-temperature block of `SendMQTTMessage` (lines 441-451):
publish if the control temperature changed or the last fan speed is the
never-published sentinel 255 (`iHRVLastFan == 255`); runs regardless of
the frame's location. -/
def controlStep (s : HState) : HState × List Publish :=
  if s.iHRVControlTemp ≠ s.iHRVLastControl ∨ s.iHRVLastFanSpeed = 255 then
    ({ s with iHRVLastControl := s.iHRVControlTemp },
     [⟨Topic.controltemp, Payload.num s.iHRVControlTemp⟩])
  else (s, [])

/-- The fan-status payload of lines 459-484, as a function of
`iFanSpeed` and the last-published values in scope when it is built
(`lastRoof` and `lastHouse` in sixteenths of a degree, so the mixed
int/float comparisons of lines 472 and 476 scale `lastControl` by
16). -/
def fanPayload (fan : Int) (lastControl : Int) (lastRoof lastHouse : Int) : String :=
  if fan = 0 then "Off"
  else if fan = 5 then "Idle"
  else if fan = 100 then
    if 16 * lastControl ≥ lastRoof ∧ lastRoof > lastHouse then "Full (heating)"
    else if lastRoof ≤ 16 * lastControl ∧ lastRoof < lastHouse then "Full (cooling)"
    else "Full"
  else toString fan ++ "%"

/-- The fan-status block of `SendMQTTMessage` (lines 454-491): publish
a categorical fan message if the fan speed, control temperature, or the
location's temperature changed; `iHRVLastFanSpeed` is updated before
the payload is built. -/
def fanStep (s : HState) : HState × List Publish :=
  if s.iFanSpeed ≠ s.iHRVLastFanSpeed ∨ s.iHRVControlTemp ≠ s.iHRVLastControl
      ∨ (s.eTempLoc = HRVROOF ∧ s.fHRVTemp ≠ s.fHRVLastRoof)
      ∨ (s.eTempLoc = HRVHOUSE ∧ s.fHRVTemp ≠ s.fHRVLastHouse) then
    let s1 := { s with iHRVLastFanSpeed := s.iFanSpeed }
    (s1, [⟨Topic.fanspeed,
           Payload.text (fanPayload s1.iFanSpeed s1.iHRVLastControl s1.fHRVLastRoof s1.fHRVLastHouse)⟩])
  else (s, [])

/-- The function `SendMQTTMessage()` (lines 398-500): when connected, round the
temperature, then run the temperature, control and fan blocks in
order.  When not connected, nothing happens. -/
def SendMQTTMessage (s : HState) (connected : Bool) : HState × List Publish :=
  if connected then
    let s0 := { s with fHRVTemp := roundedTemp s.fHRVTemp }
    let r1 := tempStep s0
    let r2 := controlStep r1.1
    let r3 := fanStep r2.1
    (r3.1, r1.2 ++ r2.2 ++ r3.2)
  else (s, [])

/-- The frame-processing block of `loop()` (lines 293-338), run after
validation: if a complete capture with more than 5 bytes is present,
extract the fields, send MQTT data, and reset the capture state.  The
emitted `Frame` records the extracted values. -/
def processStep (s : HState) : HState × Option Frame × List Publish :=
  if s.bStarted = true ∧ s.bEnded = true then
    if s.bIndex > 5 then
      let s1 := extractFields s
      let fr : Frame := ⟨s1.eTempLoc, s1.fHRVTemp, s1.iFanSpeed, s1.iHRVControlTemp⟩
      let r := SendMQTTMessage s1 true
      ({ r.1 with bStarted := false, bEnded := false, bIndex := 0 }, some fr, r.2)
    else (s, none, [])
  else (s, none, [])

/-- The outcome of feeding a byte list: final state, frames emitted,
publishes performed (in order). -/
structure RunResult where
  state : HState
  frames : List Frame
  pubs : List Publish

/-- The zero-or-one frame a single `loop()` iteration emits, as a
list. -/
def optFrames : Option Frame → List Frame
  | some fr => [fr]
  | none => []

/-- One iteration of `loop()` over the available bytes (connected
steady state): drain the serial data, validate, process.  A checksum
failure flushes the serial buffer (line 284), discarding the bytes not
yet consumed. -/
def loopIter (s : HState) (input : List Nat) : HState × List Nat × Option Frame × List Publish :=
  let d := drainBytes s input
  let v := validateStep d.1
  let rest := if v.2 then [] else d.2
  let p := processStep v.1
  (p.1, rest, p.2.1, p.2.2)

/-- Iterate `loop()` until the input is exhausted (fuel-indexed; fuel
equal to the input length always suffices because each iteration with a
nonempty input consumes at least one byte). -/
def runBytesAux : Nat → HState → List Nat → RunResult
  | 0, s, _ => ⟨s, [], []⟩
  | fuel + 1, s, input =>
    match input with
    | [] => ⟨s, [], []⟩
    | c :: rest0 =>
      let r := loopIter s (c :: rest0)
      let rec1 := runBytesAux fuel r.1 r.2.1
      ⟨rec1.state, optFrames r.2.2.1 ++ rec1.frames, r.2.2.2 ++ rec1.pubs⟩

/-- Feed a whole byte sequence through the connected steady-state
`loop()`. -/
def runBytes (s : HState) (input : List Nat) : RunResult :=
  runBytesAux input.length s input

/-- Modelled from the spec: the "running-subtraction checksum" of a
byte list, `sum = 0; sum = sum - byte` for each byte, taken mod 256. -/
def runningSubChecksum (bs : List Nat) : Nat :=
  ((bs.foldl (fun a (b : Nat) => a - (b : Int)) 0) % 256).toNat

/-- Modelled from the claim (C1): the running-subtraction value over
the bytes strictly between the location byte (buffer index 1) and the
checksum byte (buffer index `k`), i.e. indices 2 to `k - 1`, with the
location byte excluded. -/
def claimDataChecksum (f : Nat → Nat) (k : Nat) : Nat :=
  runningSubChecksum ((List.range (k - 2)).map (fun i => f (2 + i)))

/-- The bytes the source's checksum loop actually subtracts: buffer
indices 1 to `k - 1`, location byte included. -/
def codeChecksumBytes (f : Nat → Nat) (k : Nat) : List Nat :=
  (List.range (k - 1)).map (fun i => f (1 + i))

/-! ## Hex-string lemmas -/

/-- On byte values, `decToHex b 2` is the two-digit hex string. -/
lemma decToHex_two : ∀ b < 256, decToHex b 2 = [hexChar (b / 16), hexChar (b % 16)] := by
  decide

/-- Injectivity of `hexChar` on hex digits. -/
lemma hexChar_inj : ∀ a < 16, ∀ b < 16, hexChar a = hexChar b → a = b := by
  decide

/-- Injectivity of `decToHex _ 2` on byte values: the string comparison of
the checksum check distinguishes distinct bytes. -/
lemma decToHex_inj (a b : Nat) (ha : a < 256) (hb : b < 256)
    (h : decToHex a 2 = decToHex b 2) : a = b := by
  rw [decToHex_two a ha, decToHex_two b hb] at h
  simp only [List.cons.injEq, and_true] at h
  have d1 : a / 16 = b / 16 := hexChar_inj _ (by omega) _ (by omega) h.1
  have d2 : a % 16 = b % 16 := hexChar_inj _ (by omega) _ (by omega) h.2
  omega

/-- Digit inversion: `hexToDec` inverts `hexChar` digit by digit. -/
lemma hexCharVal_hexChar : ∀ d < 16, (hexCharVal (hexChar d)).toNat = d := by
  decide

/-- The double hex round-trip of the temperature decoding is the
16-bit big-endian value of the two bytes. -/
lemma hexToDec_roundtrip (b1 b2 : Nat) (h1 : b1 < 256) (h2 : b2 < 256) :
    hexToDec (decToHex b1 2 ++ decToHex b2 2) = b1 * 256 + b2 := by
  rw [decToHex_two b1 h1, decToHex_two b2 h2]
  have e1 := hexCharVal_hexChar (b1 / 16) (by omega)
  have e2 := hexCharVal_hexChar (b1 % 16) (by omega)
  have e3 := hexCharVal_hexChar (b2 / 16) (by omega)
  have e4 := hexCharVal_hexChar (b2 % 16) (by omega)
  simp only [hexToDec, List.cons_append, List.nil_append, List.foldl_cons, List.foldl_nil,
    e1, e2, e3, e4]
  omega

/-! ## Checksum-loop lemmas -/

/-- A byte list as a list of integers. -/
def intsOf (l : List Nat) : List Int := l.map (fun b : Nat => (b : Int))

/-- Folding running subtraction over a list subtracts its sum. -/
lemma foldl_sub_eq (l : List Nat) : ∀ a : Int,
    l.foldl (fun a (b : Nat) => a - (b : Int)) a = a - (intsOf l).sum := by
  induction l with
  | nil => intro a; simp [intsOf]
  | cons c l ih =>
    intro a
    rw [List.foldl_cons, ih (a - (c : Int))]
    simp only [intsOf, List.map_cons, List.sum_cons]
    ring

/-- The checksum loop value `iChar` is the negated sum of the buffer
bytes at indices `1 .. bChecksum - 1`. -/
lemma subRange_eq (f : Nat → Nat) :
    ∀ k, subRange f k = -((intsOf (codeChecksumBytes f k)).sum) := by
  have aux : ∀ n, subRange f (n + 1)
      = -((intsOf ((List.range n).map (fun i => f (1 + i)))).sum) := by
    intro n
    induction n with
    | zero =>
      have h0 : subRange f 1 = 0 := rfl
      simp [h0, intsOf]
    | succ m ih =>
      have hstep : subRange f (m + 1 + 1)
          = subRange f (m + 1) - (if m + 1 = 0 then 0 else (f (m + 1) : Int)) := rfl
      rw [hstep, ih, if_neg (Nat.succ_ne_zero m)]
      rw [List.range_succ]
      simp only [intsOf, List.map_append, List.sum_append, List.map_cons, List.map_nil,
        List.sum_cons, List.sum_nil]
      have hmm : 1 + m = m + 1 := by omega
      rw [hmm]
      ring
  intro k
  cases k with
  | zero => simp [subRange, codeChecksumBytes, intsOf]
  | succ n =>
    rw [aux n]
    rfl

/-- Value `bCalc` of the validation block equals the spec's
running-subtraction checksum of the bytes the loop visits. -/
lemma bCalc_eq (f : Nat → Nat) (k : Nat) :
    ((subRange f k) % 256).toNat = runningSubChecksum (codeChecksumBytes f k) := by
  rw [runningSubChecksum, foldl_sub_eq, subRange_eq]
  simp

/-- The spec's running-subtraction checksum is a byte value. -/
lemma runningSubChecksum_lt (l : List Nat) : runningSubChecksum l < 256 := by
  rw [runningSubChecksum]
  have h1 : (0 : Int) < 256 := by omega
  have h2 := Int.emod_lt_of_pos (l.foldl (fun a b => a - (b : Int)) 0) h1
  have h3 := Int.emod_nonneg (l.foldl (fun a b => a - (b : Int)) 0) (by omega : (256 : Int) ≠ 0)
  omega

/-! ## Claim C1 -/

/-- C1, corrected (amended form): for a completed capture
(`bStarted && bEnded && bChecksum > 0`) with at least 6 captured bytes,
the frame passes checksum validation (no reset/flush) if and only if
the transmitted checksum byte equals the running subtraction mod 256
over the buffer bytes at indices 1 to `bChecksum - 1` — that is, over
the location byte (index 1, the start marker sits at index 0) together
with the data bytes, the location byte being INCLUDED in the sum. -/
theorem hrv_C1_amended (s : HState)
    (h1 : s.bStarted = true) (h2 : s.bEnded = true) (h3 : 0 < s.bChecksum)
    (h4 : 6 ≤ s.bIndex) :
    (validateStep s).2 = false ↔
      s.inData s.bChecksum % 256 = runningSubChecksum (codeChecksumBytes s.inData s.bChecksum) := by
  have hcond : s.bStarted = true ∧ s.bEnded = true ∧ s.bChecksum > 0 := ⟨h1, h2, h3⟩
  rw [validateStep, if_pos hcond]
  have hlt : ¬ s.bIndex < 6 := by omega
  have hCalcLt : ((subRange s.inData s.bChecksum) % 256).toNat < 256 := by
    rw [bCalc_eq]; exact runningSubChecksum_lt _
  have hCheckLt : s.inData s.bChecksum % 256 < 256 := Nat.mod_lt _ (by omega)
  by_cases heq : decToHex ((subRange s.inData s.bChecksum % 256).toNat) 2
      = decToHex (s.inData s.bChecksum % 256) 2
  · rw [if_neg (by simp [heq, hlt])]
    simp only [eq_self_iff_true, true_iff]
    have := decToHex_inj _ _ hCalcLt hCheckLt heq
    rw [← this, bCalc_eq]
  · rw [if_pos (by simp [heq])]
    simp only [Bool.true_eq_false, false_iff]
    intro hval
    apply heq
    rw [← bCalc_eq] at hval
    rw [hval]

/-- C1 counterexample: feed the complete frame
`7E 31 02 80 32 14 07 7E`.  The capture completes with the checksum
byte at index 6 carrying the value 7, and validation PASSES — yet the
running subtraction over only the data bytes strictly between the
location byte and the checksum byte (the claim's range, location
excluded) is 56, not 7.  The claimed "validates iff transmitted equals
the location-free sum" is therefore false on this input. -/
theorem hrv_C1_counterexample :
    (validateStep (drainBytes hrvInit [126, 49, 2, 128, 50, 20, 7, 126]).1).2 = false
    ∧ (drainBytes hrvInit [126, 49, 2, 128, 50, 20, 7, 126]).1.bChecksum = 6
    ∧ (drainBytes hrvInit [126, 49, 2, 128, 50, 20, 7, 126]).1.inData 6 % 256 = 7
    ∧ claimDataChecksum (drainBytes hrvInit [126, 49, 2, 128, 50, 20, 7, 126]).1.inData 6 = 56 := by
  decide

/-- Witness for `hrv_C1_amended` at the concrete completed capture of
the frame `7E 31 02 80 32 14 07 7E`. -/
theorem hrv_C1_witness :
    (validateStep (drainBytes hrvInit [126, 49, 2, 128, 50, 20, 7, 126]).1).2 = false ↔
      (drainBytes hrvInit [126, 49, 2, 128, 50, 20, 7, 126]).1.inData
          (drainBytes hrvInit [126, 49, 2, 128, 50, 20, 7, 126]).1.bChecksum % 256
        = runningSubChecksum
            (codeChecksumBytes (drainBytes hrvInit [126, 49, 2, 128, 50, 20, 7, 126]).1.inData
              (drainBytes hrvInit [126, 49, 2, 128, 50, 20, 7, 126]).1.bChecksum) :=
  hrv_C1_amended (drainBytes hrvInit [126, 49, 2, 128, 50, 20, 7, 126]).1
    (by decide) (by decide) (by decide) (by decide)

/-! ## Claim C10: the receive buffer is never written above index 8 -/

/-- One `while`-body step never writes `inData` above index 8: the
line-213 guard routes any byte arriving with `bIndex > 8` to the
end-of-frame branch, and a capture start writes at index 0. -/
lemma loopStep_inData_hi (s : HState) (c i : Nat) (h : 8 < i) :
    (loopStep s c).state.inData i = s.inData i := by
  have hup : ∀ (j v : Nat), j ≤ 8 → updArr s.inData j v i = s.inData i := by
    intro j v hj
    rw [updArr, if_neg (by omega : ¬ i = j)]
  by_cases h1 : c = MSGSTARTSTOP ∨ s.bIndex > 8
  · by_cases h2 : s.bIndex = 0
    · have he : loopStep s c = storePhase { s with bStarted := true } c := by
        rw [loopStep, if_pos h1, if_pos h2]
      rw [he, storePhase, if_pos rfl]
      exact hup s.bIndex (c % 256) (by omega)
    · have he : loopStep s c = .brk { s with bChecksum := s.bIndex - 1, bEnded := true } := by
        rw [loopStep, if_pos h1, if_neg h2]
      rw [he]
      rfl
  · have hle : s.bIndex ≤ 8 := by
      rcases not_or.mp h1 with ⟨_, hx⟩
      omega
    have he : loopStep s c = storePhase s c := by
      rw [loopStep, if_neg h1]
    rw [he, storePhase]
    by_cases h3 : s.bStarted = true
    · rw [if_pos h3]
      exact hup s.bIndex (c % 256) hle
    · rw [if_neg h3]
      rfl

/-- Draining any byte list never writes `inData` above index 8. -/
lemma drainBytes_inData_hi (l : List Nat) : ∀ (s : HState) (i : Nat), 8 < i →
    (drainBytes s l).1.inData i = s.inData i := by
  induction l with
  | nil => intro s i _; rfl
  | cons c rest ih =>
    intro s i hi
    rw [drainBytes]
    cases hstep : loopStep s c with
    | brk s1 =>
      have := loopStep_inData_hi s c i hi
      rw [hstep] at this
      simpa using this
    | cont s1 =>
      have := loopStep_inData_hi s c i hi
      rw [hstep] at this
      simp only [StepOut.state] at this
      simpa [this] using ih s1 i hi

/-- Validation never writes `inData`. -/
lemma validateStep_inData (s : HState) : (validateStep s).1.inData = s.inData := by
  rw [validateStep]
  by_cases h1 : s.bStarted = true ∧ s.bEnded = true ∧ s.bChecksum > 0
  · rw [if_pos h1]
    by_cases h2 : decToHex ((subRange s.inData s.bChecksum % 256).toNat) 2
        ≠ decToHex (s.inData s.bChecksum % 256) 2 ∨ s.bIndex < 6
    · rw [if_pos h2]
    · rw [if_neg h2]
  · rw [if_neg h1]

/-- The publish path never writes `inData`. -/
lemma SendMQTTMessage_inData (s : HState) (c : Bool) :
    (SendMQTTMessage s c).1.inData = s.inData := by
  cases c with
  | false => rfl
  | true =>
    simp only [SendMQTTMessage, tempStep, controlStep, fanStep]
    split_ifs <;> rfl

/-- Frame processing never writes `inData`. -/
lemma processStep_inData (s : HState) : (processStep s).1.inData = s.inData := by
  simp only [processStep]
  split_ifs with h1 h2
  · exact (SendMQTTMessage_inData (extractFields s) true).trans rfl
  · rfl
  · rfl

/-- One whole `loop()` iteration never writes `inData` above index 8. -/
lemma loopIter_inData_hi (s : HState) (input : List Nat) (i : Nat) (h : 8 < i) :
    (loopIter s input).1.inData i = s.inData i := by
  simp only [loopIter]
  rw [processStep_inData, validateStep_inData, drainBytes_inData_hi input s i h]

/-- The fuel-indexed runner never writes `inData` above index 8. -/
lemma runBytesAux_inData_hi (fuel : Nat) : ∀ (s : HState) (input : List Nat) (i : Nat),
    8 < i → (runBytesAux fuel s input).state.inData i = s.inData i := by
  induction fuel with
  | zero => intro s input i _; rfl
  | succ n ih =>
    intro s input i hi
    cases input with
    | nil => rfl
    | cons c rest =>
      show (runBytesAux n (loopIter s (c :: rest)).1 (loopIter s (c :: rest)).2.1).state.inData i
          = s.inData i
      rw [ih _ _ i hi, loopIter_inData_hi _ _ i hi]

/-- C10, confirmed: for every starting state and every input byte
sequence, the receive buffer `inData` is never modified at any index
above 8 — every store the decoder performs lands at an index between 0
and 8 inclusive, because the `bIndex > 8` guard of line 213 precedes
every append and diverts to the end-of-frame branch, and a capture
start stores at index 0.  So the 10-byte buffer is never written out of
bounds, whatever bytes arrive and in whatever order. -/
theorem hrv_C10_buffer_bounds (s : HState) (input : List Nat) (i : Nat) (h : 8 < i) :
    (runBytes s input).state.inData i = s.inData i := by
  rw [runBytes]
  exact runBytesAux_inData_hi input.length s input i h

/-- Witness for `hrv_C10_buffer_bounds`: a concrete overlong garbage
stream leaves `inData 9` (and `inData 100`) untouched. -/
theorem hrv_C10_witness :
    (runBytes hrvInit [126, 1, 2, 3, 4, 5, 6, 7, 8, 9, 10, 11, 12, 126, 126]).state.inData 9 = 0
    ∧ (runBytes hrvInit [126, 1, 2, 3, 4, 5, 6, 7, 8, 9, 10, 11, 12, 126, 126]).state.inData 100 = 0 :=
  ⟨hrv_C10_buffer_bounds hrvInit [126, 1, 2, 3, 4, 5, 6, 7, 8, 9, 10, 11, 12, 126, 126] 9
     (by decide),
   hrv_C10_buffer_bounds hrvInit [126, 1, 2, 3, 4, 5, 6, 7, 8, 9, 10, 11, 12, 126, 126] 100
     (by decide)⟩

/-! ## Claim C3: a non-marker byte on a full buffer -/

/-- C3, corrected (amended form): when a byte arrives while the buffer
already holds 9 bytes (`bIndex = 9`), the decoder does NOT discard the
buffer and return to Idle; it treats the situation exactly like an end
marker: it records index 8 (the last stored byte) as the checksum
position, sets `bEnded`, leaves `bStarted`, `bIndex` and the buffered
bytes intact, and breaks out of the read loop — after which the
buffered frame is validated and, if its checksum matches, emitted. -/
theorem hrv_C3_amended (s : HState) (b : Nat) (h9 : s.bIndex = 9) :
    loopStep s b = .brk { s with bChecksum := 8, bEnded := true } := by
  rw [loopStep, if_pos (Or.inr (by omega)), if_neg (by omega : ¬ s.bIndex = 0), h9]

/-- C3 counterexample: after the 9 bytes `7E 31 02 80 32 14 00 00 07`
have been buffered, the arrival of the non-marker byte `01` ends the
frame; the byte at index 8 (`07`) matches the running-subtraction
checksum of bytes 1..7, so the decoder EMITS a frame from the 9
buffered bytes instead of discarding them — refuting "the buffered
bytes are discarded, no frame is emitted from them". -/
theorem hrv_C3_counterexample :
    (runBytes hrvInit [126, 49, 2, 128, 50, 20, 0, 0, 7, 1]).frames
      = [⟨49, 640, 50, 20⟩] := by
  decide

/-- Witness for `hrv_C3_amended` at the concrete full-buffer state
reached by feeding `7E 31 02 80 32 14 00 00 07`. -/
theorem hrv_C3_witness :
    loopStep (drainBytes hrvInit [126, 49, 2, 128, 50, 20, 0, 0, 7]).1 1
      = .brk { (drainBytes hrvInit [126, 49, 2, 128, 50, 20, 0, 0, 7]).1 with
                 bChecksum := 8, bEnded := true } :=
  hrv_C3_amended (drainBytes hrvInit [126, 49, 2, 128, 50, 20, 0, 0, 7]).1 1 (by decide)

/-! ## Store/drain machinery for whole-frame runs -/

/-- The cumulative effect on the byte array of storing a list of bytes
at consecutive indices starting at `i`. -/
def storeArr (f : Nat → Nat) (i : Nat) : List Nat → (Nat → Nat)
  | [] => f
  | c :: l => storeArr (updArr f i (c % 256)) (i + 1) l

/-- The state after appending a whole byte list to the capture
buffer. -/
def storeState (s : HState) (l : List Nat) : HState :=
  { s with inData := storeArr s.inData s.bIndex l, bIndex := s.bIndex + l.length }

lemma storeState_cons (s : HState) (c : Nat) (l : List Nat) :
    storeState s (c :: l)
      = storeState { s with inData := updArr s.inData s.bIndex (c % 256),
                            bIndex := s.bIndex + 1 } l := by
  simp only [storeState, List.length_cons]
  congr 1
  omega

/-- Readback of `storeArr`: indices in the stored window hold the
corresponding list byte (reduced mod 256), all others are untouched. -/
lemma storeArr_get : ∀ (l : List Nat) (f : Nat → Nat) (i j : Nat),
    storeArr f i l j
      = if i ≤ j ∧ j < i + l.length then (l.getD (j - i) 0) % 256 else f j := by
  intro l
  induction l with
  | nil =>
    intro f i j
    rw [storeArr, if_neg (by simp only [List.length_nil]; omega)]
  | cons c l ih =>
    intro f i j
    rw [storeArr, ih]
    by_cases h1 : i + 1 ≤ j ∧ j < i + 1 + l.length
    · rw [if_pos h1, if_pos (by simp only [List.length_cons]; omega)]
      have hj : j - i = (j - (i + 1)) + 1 := by omega
      rw [hj, List.getD_cons_succ]
    · rw [if_neg h1, updArr]
      by_cases h2 : j = i
      · subst h2
        rw [if_pos rfl, if_pos (by simp only [List.length_cons]; omega)]
        simp
      · rw [if_neg h2, if_neg (by simp only [List.length_cons]; omega)]

/-- Draining a run of non-marker bytes while capturing (with room in
the buffer) just appends them all. -/
lemma drain_nonmarkers : ∀ (l : List Nat) (s : HState) (rest : List Nat),
    s.bStarted = true → s.bIndex + l.length ≤ 9 →
    (∀ b ∈ l, ¬ b = MSGSTARTSTOP) →
    drainBytes s (l ++ rest) = drainBytes (storeState s l) rest := by
  intro l
  induction l with
  | nil =>
    intro s rest _ _ _
    rfl
  | cons c l ih =>
    intro s rest hst hlen hb
    have hc : ¬ c = MSGSTARTSTOP := hb c (by simp)
    have hlen' : s.bIndex + (l.length + 1) ≤ 9 := by
      simpa [List.length_cons] using hlen
    have hcond : ¬ (c = MSGSTARTSTOP ∨ s.bIndex > 8) := by
      push_neg
      exact ⟨hc, by omega⟩
    have he : loopStep s c
        = .cont { s with inData := updArr s.inData s.bIndex (c % 256),
                         bIndex := s.bIndex + 1 } := by
      rw [loopStep, if_neg hcond, storePhase, if_pos hst]
    show drainBytes s (c :: (l ++ rest)) = _
    rw [drainBytes, he]
    show drainBytes { s with inData := updArr s.inData s.bIndex (c % 256),
                             bIndex := s.bIndex + 1 } (l ++ rest)
        = drainBytes (storeState s (c :: l)) rest
    rw [ih { s with inData := updArr s.inData s.bIndex (c % 256), bIndex := s.bIndex + 1 }
        rest hst (show s.bIndex + 1 + l.length ≤ 9 by omega)
        (fun b hbmem => hb b (List.mem_cons_of_mem _ hbmem))]
    rw [storeState_cons]

/-- Mapping position lookup over the index range of a list recovers the
list. -/
lemma range_map_getD : ∀ (l : List Nat),
    (List.range l.length).map (fun i => l.getD i 0) = l := by
  intro l
  induction l with
  | nil => rfl
  | cons c l ih =>
    rw [List.length_cons, List.range_succ_eq_map, List.map_cons, List.map_map]
    simp only [Function.comp_def, Nat.succ_eq_add_one, List.getD_cons_succ,
      List.getD_cons_zero]
    rw [ih]

/-- Running on an empty input does nothing, whatever the fuel. -/
lemma runBytesAux_nil (fuel : Nat) (s : HState) : runBytesAux fuel s [] = ⟨s, [], []⟩ := by
  cases fuel <;> rfl

/-- When one `loop()` iteration drains the whole input, the run is that
single iteration: validation then processing of the drained state. -/
lemma runBytes_of_drain (s t : HState) (input : List Nat) (hne : input ≠ [])
    (hd : drainBytes s input = (t, [])) :
    runBytes s input
      = ⟨(processStep (validateStep t).1).1,
         optFrames (processStep (validateStep t).1).2.1,
         (processStep (validateStep t).1).2.2⟩ := by
  cases input with
  | nil => exact absurd rfl hne
  | cons c rest =>
    rw [runBytes]
    show runBytesAux (rest.length + 1) s (c :: rest) = _
    rw [runBytesAux]
    simp only [loopIter, hd, ite_self]
    rw [runBytesAux_nil]
    simp

/-- The decoder state right after a whole frame-shaped byte sequence
`7E, lp.., 7E` has been drained: capture started (storing the marker at
index 0), the payload `lp` stored at indices 1.., and the final marker
taken as end-of-frame with the checksum position `bIndex - 1`. -/
def endedState (s : HState) (lp : List Nat) : HState :=
  { storeState { s with bStarted := true,
                        inData := updArr s.inData s.bIndex (126 % 256),
                        bIndex := s.bIndex + 1 } lp with
    bChecksum := s.bIndex + 1 + lp.length - 1, bEnded := true }

/-- The line-213 test holds for a marker byte, whatever the state. -/
lemma marker_cond (s : HState) : 126 = MSGSTARTSTOP ∨ s.bIndex > 8 :=
  Or.inl rfl

/-- Draining a frame-shaped sequence from an idle decoder stores the
marker and payload and ends the capture at the final marker. -/
lemma drain_frame (s : HState) (loc : Nat) (bs : List Nat) (c : Nat)
    (hIdx : s.bIndex = 0) (hlocm : ¬ loc = MSGSTARTSTOP)
    (hbsm : ∀ b ∈ bs, ¬ b = MSGSTARTSTOP) (hcm : ¬ c = MSGSTARTSTOP)
    (hlen6 : bs.length ≤ 6) :
    drainBytes s (126 :: loc :: bs ++ [c, 126]) = (endedState s (loc :: bs ++ [c]), []) := by
  have hsplit : (126 :: loc :: bs ++ [c, 126]) = 126 :: ((loc :: bs ++ [c]) ++ [126]) := by
    simp
  rw [hsplit]
  have he0 : loopStep s 126
      = .cont { s with bStarted := true, inData := updArr s.inData s.bIndex (126 % 256),
                       bIndex := s.bIndex + 1 } := by
    rw [loopStep, if_pos (marker_cond s), if_pos hIdx, storePhase, if_pos rfl]
  rw [drainBytes, he0]
  show drainBytes { s with bStarted := true, inData := updArr s.inData s.bIndex (126 % 256),
                           bIndex := s.bIndex + 1 } ((loc :: bs ++ [c]) ++ [126]) = _
  rw [drain_nonmarkers (loc :: bs ++ [c]) _ [126] rfl
      (show s.bIndex + 1 + (loc :: bs ++ [c]).length ≤ 9 by
        simp only [List.length_cons, List.length_append, List.length_nil]
        omega)
      (by
        intro b hbm
        rcases List.mem_cons.mp hbm with h | h
        · rw [h]; exact hlocm
        · rcases List.mem_append.mp h with h2 | h2
          · exact hbsm b h2
          · rw [List.mem_singleton.mp h2]; exact hcm)]
  have hne0 : ¬ (storeState { s with bStarted := true, inData := updArr s.inData s.bIndex (126 % 256), bIndex := s.bIndex + 1 } (loc :: bs ++ [c])).bIndex = 0 := by
    show ¬ (s.bIndex + 1 + (loc :: bs ++ [c]).length) = 0
    omega
  have he1 : loopStep (storeState { s with bStarted := true, inData := updArr s.inData s.bIndex (126 % 256), bIndex := s.bIndex + 1 } (loc :: bs ++ [c])) 126 = .brk (endedState s (loc :: bs ++ [c])) := by
    rw [loopStep, if_pos (marker_cond _), if_neg hne0]
    rfl
  rw [drainBytes, he1]

/-- Readback in the ended state: index `j` of the buffer (for `j` in
the stored window after the marker) holds payload byte `j - 1`. -/
lemma endedState_inData (s : HState) (lp : List Nat) (j : Nat)
    (h1 : 1 ≤ j) (h2 : j < 1 + lp.length) (hIdx : s.bIndex = 0) :
    (endedState s lp).inData j = (lp.getD (j - 1) 0) % 256 := by
  show storeArr (updArr s.inData s.bIndex (126 % 256)) (s.bIndex + 1) lp j = _
  rw [storeArr_get, if_pos ⟨by omega, by omega⟩]
  have hj : j - (s.bIndex + 1) = j - 1 := by omega
  rw [hj]

/-- The bytes the checksum loop visits in the ended state of a
frame-shaped capture are exactly the location byte followed by the data
bytes. -/
lemma endedState_codeBytes (s : HState) (loc : Nat) (bs : List Nat) (c : Nat)
    (hIdx : s.bIndex = 0) (hloc : loc < 256) (hbs : ∀ b ∈ bs, b < 256) :
    codeChecksumBytes (endedState s (loc :: bs ++ [c])).inData
        (endedState s (loc :: bs ++ [c])).bChecksum = loc :: bs := by
  have hk : (endedState s (loc :: bs ++ [c])).bChecksum - 1 = (loc :: bs).length := by
    show s.bIndex + 1 + (loc :: bs ++ [c]).length - 1 - 1 = (loc :: bs).length
    simp only [List.length_cons, List.length_append, List.length_nil]
    omega
  rw [codeChecksumBytes, hk]
  have hmap : ∀ i ∈ List.range (loc :: bs).length,
      (fun i => (endedState s (loc :: bs ++ [c])).inData (1 + i)) i
        = (fun i => (loc :: bs).getD i 0) i := by
    intro i hi
    have hi' : i < (loc :: bs).length := List.mem_range.mp hi
    have hi2 : i < bs.length + 1 := by
      simpa only [List.length_cons] using hi'
    show (endedState s (loc :: bs ++ [c])).inData (1 + i) = (loc :: bs).getD i 0
    rw [endedState_inData s (loc :: bs ++ [c]) (1 + i) (by omega)
        (by simp only [List.length_cons, List.length_append, List.length_nil]; omega) hIdx]
    have h1i : 1 + i - 1 = i := by omega
    rw [h1i]
    have hgd : (loc :: bs ++ [c]).getD i 0 = (loc :: bs).getD i 0 := by
      show ((loc :: bs) ++ [c]).getD i 0 = (loc :: bs).getD i 0
      exact List.getD_append _ _ _ _ hi'
    rw [hgd]
    apply Nat.mod_eq_of_lt
    rw [List.getD_eq_getElem (loc :: bs) 0 hi']
    have hmem := List.getElem_mem hi'
    rcases List.mem_cons.mp hmem with hx | hx
    · rw [hx]; exact hloc
    · exact hbs _ hx
  rw [List.map_congr_left hmap]
  exact range_map_getD (loc :: bs)

/-- The transmitted checksum byte read back from the ended state. -/
lemma endedState_bCheck (s : HState) (loc : Nat) (bs : List Nat) (c : Nat)
    (hIdx : s.bIndex = 0) (hc255 : c < 256) :
    (endedState s (loc :: bs ++ [c])).inData (endedState s (loc :: bs ++ [c])).bChecksum % 256
      = c := by
  have hk : (endedState s (loc :: bs ++ [c])).bChecksum = bs.length + 2 := by
    show s.bIndex + 1 + (loc :: bs ++ [c]).length - 1 = bs.length + 2
    simp only [List.length_cons, List.length_append, List.length_nil]
    omega
  rw [hk, endedState_inData s (loc :: bs ++ [c]) (bs.length + 2) (by omega)
      (by simp only [List.length_cons, List.length_append, List.length_nil]; omega) hIdx]
  have h2 : bs.length + 2 - 1 = bs.length + 1 := by omega
  rw [h2]
  have hgd : (loc :: bs ++ [c]).getD (bs.length + 1) 0 = c := by
    rw [List.getD_append_right (loc :: bs) [c] 0 (bs.length + 1)
        (by simp only [List.length_cons]; omega)]
    simp
  rw [hgd, Nat.mod_eq_of_lt hc255, Nat.mod_eq_of_lt hc255]

/-- Byte readback for the positions the checksum loop and the field
extraction use: buffer index `j` (for `1 ≤ j ≤ |bs| + 1`) holds the
`j - 1`-th byte of `loc :: bs`, already below 256. -/
lemma endedState_read_mid (s : HState) (loc : Nat) (bs : List Nat) (c : Nat) (j : Nat)
    (hIdx : s.bIndex = 0) (hj1 : 1 ≤ j) (hj2 : j ≤ bs.length + 1)
    (hloc : loc < 256) (hbsLT : ∀ b ∈ bs, b < 256) :
    (endedState s (loc :: bs ++ [c])).inData j % 256 = (loc :: bs).getD (j - 1) 0 := by
  rw [endedState_inData s _ j hj1
      (by simp only [List.length_append, List.length_cons, List.length_nil]; omega) hIdx]
  have hlt : j - 1 < (loc :: bs).length := by
    simp only [List.length_cons]
    omega
  have hgd : ((loc :: bs) ++ [c]).getD (j - 1) 0 = (loc :: bs).getD (j - 1) 0 :=
    List.getD_append _ _ _ _ hlt
  rw [hgd]
  have hb : (loc :: bs).getD (j - 1) 0 < 256 := by
    rw [List.getD_eq_getElem _ _ hlt]
    rcases List.mem_cons.mp (List.getElem_mem hlt) with hx | hx
    · rw [hx]; exact hloc
    · exact hbsLT _ hx
  rw [Nat.mod_eq_of_lt (Nat.mod_lt _ (by omega)), Nat.mod_eq_of_lt hb]

/-- The buffer index after a frame-shaped capture has ended. -/
lemma endedState_bIndex (s : HState) (loc : Nat) (bs : List Nat) (c : Nat)
    (hIdx : s.bIndex = 0) :
    (endedState s (loc :: bs ++ [c])).bIndex = bs.length + 3 := by
  show s.bIndex + 1 + (loc :: bs ++ [c]).length = bs.length + 3
  simp only [List.length_append, List.length_cons, List.length_nil]
  omega

/-! ## Claim C2 -/

/-- C2, corrected (amended form): feeding a well-formed frame
`MARKER, loc, b1..bn, checksum, MARKER` — every payload byte distinct
from the marker, 4 ≤ n ≤ 6 so the frame carries the full field set and
fits the capture buffer, and the checksum byte equal to the running
subtraction mod 256 over the location byte TOGETHER WITH the data bytes
— emits exactly one frame, decoded positionally: the location byte,
the 16-bit big-endian raw temperature `b1*256 + b2` (in sixteenths of a
degree, i.e. scaled by 0.0625), and for House-tagged frames the fan
speed `b3` and control temperature `b4` (for other locations the
previous globals are retained). -/
theorem hrv_C2_amended (s : HState) (loc : Nat) (bs : List Nat) (c : Nat)
    (hIdx : s.bIndex = 0)
    (hloc : loc < 256) (hlocm : ¬ loc = MSGSTARTSTOP)
    (hbs : ∀ b ∈ bs, b < 256 ∧ ¬ b = MSGSTARTSTOP)
    (hcm : ¬ c = MSGSTARTSTOP)
    (hlen4 : 4 ≤ bs.length) (hlen6 : bs.length ≤ 6)
    (hchk : c = runningSubChecksum (loc :: bs)) :
    (runBytes s (126 :: loc :: bs ++ [c, 126])).frames
      = [⟨loc, ((bs.getD 0 0 * 256 + bs.getD 1 0 : Nat) : Int),
          if loc = HRVHOUSE then ((bs.getD 2 0 : Nat) : Int) else s.iFanSpeed,
          if loc = HRVHOUSE then ((bs.getD 3 0 : Nat) : Int) else s.iHRVControlTemp⟩] := by
  have hbsLT : ∀ b ∈ bs, b < 256 := fun b hb => (hbs b hb).1
  have hbsm : ∀ b ∈ bs, ¬ b = MSGSTARTSTOP := fun b hb => (hbs b hb).2
  have hc255 : c < 256 := by
    rw [hchk]
    exact runningSubChecksum_lt _
  have hrun := runBytes_of_drain s (endedState s (loc :: bs ++ [c])) _
    (by simp) (drain_frame s loc bs c hIdx hlocm hbsm hcm hlen6)
  have hbi := endedState_bIndex s loc bs c hIdx
  have hk0 : (endedState s (loc :: bs ++ [c])).bChecksum > 0 := by
    show s.bIndex + 1 + (loc :: bs ++ [c]).length - 1 > 0
    simp only [List.length_append, List.length_cons, List.length_nil]
    omega
  have hAB : ((subRange (endedState s (loc :: bs ++ [c])).inData
      (endedState s (loc :: bs ++ [c])).bChecksum) % 256).toNat
      = runningSubChecksum (loc :: bs) := by
    rw [bCalc_eq, endedState_codeBytes s loc bs c hIdx hloc hbsLT]
  have hB := endedState_bCheck s loc bs c hIdx hc255
  have hval : validateStep (endedState s (loc :: bs ++ [c]))
      = ({ endedState s (loc :: bs ++ [c]) with bChecksum := 0 }, false) := by
    rw [validateStep, if_pos ⟨rfl, rfl, hk0⟩, if_neg ?_]
    push_neg
    constructor
    · rw [hAB, hB, hchk]
    · rw [hbi]
      omega
  have hbig : ({ endedState s (loc :: bs ++ [c]) with bChecksum := 0 } : HState).bIndex > 5 := by
    show (endedState s (loc :: bs ++ [c])).bIndex > 5
    rw [hbi]
    omega
  have hp21 : (processStep { endedState s (loc :: bs ++ [c]) with bChecksum := 0 }).2.1
      = some ⟨(extractFields { endedState s (loc :: bs ++ [c]) with bChecksum := 0 }).eTempLoc,
              (extractFields { endedState s (loc :: bs ++ [c]) with bChecksum := 0 }).fHRVTemp,
              (extractFields { endedState s (loc :: bs ++ [c]) with bChecksum := 0 }).iFanSpeed,
              (extractFields { endedState s (loc :: bs ++ [c]) with bChecksum := 0 }).iHRVControlTemp⟩ := by
    rw [processStep, if_pos ⟨rfl, rfl⟩, if_pos hbig]
  have hg0 : (loc :: bs).getD 0 0 = loc := List.getD_cons_zero
  have heL : (extractFields { endedState s (loc :: bs ++ [c]) with bChecksum := 0 }).eTempLoc
      = loc := by
    show (if 1 ≤ (endedState s (loc :: bs ++ [c])).bIndex then
        (endedState s (loc :: bs ++ [c])).inData 1 % 256
      else (endedState s (loc :: bs ++ [c])).eTempLoc) = loc
    rw [hbi, if_pos (by omega : (1 : Nat) ≤ bs.length + 3),
      endedState_read_mid s loc bs c 1 hIdx (by omega) (by omega) hloc hbsLT]
    rw [show (1 : Nat) - 1 = 0 from rfl, hg0]
  have hbget : ∀ i, i < bs.length → bs.getD i 0 < 256 := by
    intro i hi
    rw [List.getD_eq_getElem _ _ hi]
    exact hbsLT _ (List.getElem_mem hi)
  have hT : (extractFields { endedState s (loc :: bs ++ [c]) with bChecksum := 0 }).fHRVTemp
      = ((bs.getD 0 0 * 256 + bs.getD 1 0 : Nat) : Int) := by
    show ((hexToDec ((if 2 ≤ (endedState s (loc :: bs ++ [c])).bIndex then
          decToHex ((endedState s (loc :: bs ++ [c])).inData 2 % 256) 2 else [])
        ++ (if 3 ≤ (endedState s (loc :: bs ++ [c])).bIndex then
          decToHex ((endedState s (loc :: bs ++ [c])).inData 3 % 256) 2 else [])) : Nat) : Int)
      = ((bs.getD 0 0 * 256 + bs.getD 1 0 : Nat) : Int)
    rw [hbi, if_pos (by omega : (2 : Nat) ≤ bs.length + 3),
      if_pos (by omega : (3 : Nat) ≤ bs.length + 3),
      endedState_read_mid s loc bs c 2 hIdx (by omega) (by omega) hloc hbsLT,
      endedState_read_mid s loc bs c 3 hIdx (by omega) (by omega) hloc hbsLT,
      show (2 : Nat) - 1 = 1 from rfl, show (3 : Nat) - 1 = 2 from rfl,
      List.getD_cons_succ, List.getD_cons_succ,
      hexToDec_roundtrip _ _ (hbget 0 (by omega)) (hbget 1 (by omega))]
  have hF : (extractFields { endedState s (loc :: bs ++ [c]) with bChecksum := 0 }).iFanSpeed
      = (if loc = HRVHOUSE then ((bs.getD 2 0 : Nat) : Int) else s.iFanSpeed) := by
    show (if (if 1 ≤ (endedState s (loc :: bs ++ [c])).bIndex then
          (endedState s (loc :: bs ++ [c])).inData 1 % 256
        else (endedState s (loc :: bs ++ [c])).eTempLoc) = HRVHOUSE
        ∧ 4 ≤ (endedState s (loc :: bs ++ [c])).bIndex then
        (((endedState s (loc :: bs ++ [c])).inData 4 % 256 : Nat) : Int)
      else (endedState s (loc :: bs ++ [c])).iFanSpeed)
      = (if loc = HRVHOUSE then ((bs.getD 2 0 : Nat) : Int) else s.iFanSpeed)
    rw [hbi, if_pos (by omega : (1 : Nat) ≤ bs.length + 3),
      endedState_read_mid s loc bs c 1 hIdx (by omega) (by omega) hloc hbsLT,
      show (1 : Nat) - 1 = 0 from rfl, hg0]
    by_cases hh : loc = HRVHOUSE
    · rw [if_pos ⟨hh, by omega⟩, if_pos hh,
        endedState_read_mid s loc bs c 4 hIdx (by omega) (by omega) hloc hbsLT,
        show (4 : Nat) - 1 = 3 from rfl, List.getD_cons_succ]
    · rw [if_neg (fun hand => hh hand.1), if_neg hh]
      rfl
  have hC : (extractFields { endedState s (loc :: bs ++ [c]) with bChecksum := 0 }).iHRVControlTemp
      = (if loc = HRVHOUSE then ((bs.getD 3 0 : Nat) : Int) else s.iHRVControlTemp) := by
    show (if (if 1 ≤ (endedState s (loc :: bs ++ [c])).bIndex then
          (endedState s (loc :: bs ++ [c])).inData 1 % 256
        else (endedState s (loc :: bs ++ [c])).eTempLoc) = HRVHOUSE
        ∧ 5 ≤ (endedState s (loc :: bs ++ [c])).bIndex then
        (((endedState s (loc :: bs ++ [c])).inData 5 % 256 : Nat) : Int)
      else (endedState s (loc :: bs ++ [c])).iHRVControlTemp)
      = (if loc = HRVHOUSE then ((bs.getD 3 0 : Nat) : Int) else s.iHRVControlTemp)
    rw [hbi, if_pos (by omega : (1 : Nat) ≤ bs.length + 3),
      endedState_read_mid s loc bs c 1 hIdx (by omega) (by omega) hloc hbsLT,
      show (1 : Nat) - 1 = 0 from rfl, hg0]
    by_cases hh : loc = HRVHOUSE
    · rw [if_pos ⟨hh, by omega⟩, if_pos hh,
        endedState_read_mid s loc bs c 5 hIdx (by omega) (by omega) hloc hbsLT,
        show (5 : Nat) - 1 = 4 from rfl, List.getD_cons_succ]
    · rw [if_neg (fun hand => hh hand.1), if_neg hh]
      rfl
  rw [hrun]
  show optFrames (processStep (validateStep (endedState s (loc :: bs ++ [c]))).1).2.1 = _
  rw [hval]
  show optFrames (processStep { endedState s (loc :: bs ++ [c]) with bChecksum := 0 }).2.1 = _
  rw [hp21]
  show [(⟨(extractFields { endedState s (loc :: bs ++ [c]) with bChecksum := 0 }).eTempLoc,
         (extractFields { endedState s (loc :: bs ++ [c]) with bChecksum := 0 }).fHRVTemp,
         (extractFields { endedState s (loc :: bs ++ [c]) with bChecksum := 0 }).iFanSpeed,
         (extractFields { endedState s (loc :: bs ++ [c]) with bChecksum := 0 }).iHRVControlTemp⟩ : Frame)] = _
  rw [heL, hT, hF, hC]

/-- C2 counterexample: the claim's checksum — the running-subtraction
sum of the data bytes `b1..bn` alone (location byte excluded, as §4.1
and C1 define it) — is 56 for the spec's example data bytes
`02 80 32 14`, yet feeding `7E 31 02 80 32 14 38 7E` (checksum byte
56 = 0x38) emits NO frame: the code's checksum loop also subtracts the
location byte `0x31` and expects 7.  The claimed "well-formed sequence
whose checksum matches the running-subtraction sum emits exactly one
frame" is therefore false as stated. -/
theorem hrv_C2_counterexample :
    runningSubChecksum [2, 128, 50, 20] = 56
    ∧ (runBytes hrvInit [126, 49, 2, 128, 50, 20, 56, 126]).frames = [] := by
  decide

/-- Witness for `hrv_C2_amended` at the spec's example frame
`7E 31 02 80 32 14 07 7E` (checksum 7 includes the location byte):
exactly one frame, House, raw temperature 0x0280 = 640 sixteenths
(40.0 degrees), fan speed 50, control temperature 20. -/
theorem hrv_C2_witness :
    (runBytes hrvInit [126, 49, 2, 128, 50, 20, 7, 126]).frames = [⟨49, 640, 50, 20⟩] :=
  hrv_C2_amended hrvInit 49 [2, 128, 50, 20] 7 (by decide) (by decide) (by decide)
    (by decide) (by decide) (by decide) (by decide) (by decide)

/-! ## Claim C7 -/

/-- C7, corrected (amended form): take a well-formed frame
`MARKER, loc, b1..bn, checksum, MARKER` (payload bytes distinct from
the marker, 3 ≤ n ≤ 6) and replace its checksum byte by any byte value
OTHER THAN the true checksum and OTHER THAN the marker 0x7E: feeding
the result emits no frame, and the decoder ends Idle — capture flags
cleared and buffer index 0 — ready for the next start marker.  (When
the replacement IS the marker 0x7E the claim fails: see the
counterexample.) -/
theorem hrv_C7_amended (s : HState) (loc : Nat) (bs : List Nat) (cx : Nat)
    (hIdx : s.bIndex = 0)
    (hloc : loc < 256) (hlocm : ¬ loc = MSGSTARTSTOP)
    (hbs : ∀ b ∈ bs, b < 256 ∧ ¬ b = MSGSTARTSTOP)
    (hcx : cx < 256) (hcxm : ¬ cx = MSGSTARTSTOP)
    (hlen3 : 3 ≤ bs.length) (hlen6 : bs.length ≤ 6)
    (hne : ¬ cx = runningSubChecksum (loc :: bs)) :
    (runBytes s (126 :: loc :: bs ++ [cx, 126])).frames = []
    ∧ (runBytes s (126 :: loc :: bs ++ [cx, 126])).state.bStarted = false
    ∧ (runBytes s (126 :: loc :: bs ++ [cx, 126])).state.bEnded = false
    ∧ (runBytes s (126 :: loc :: bs ++ [cx, 126])).state.bIndex = 0 := by
  have hbsLT : ∀ b ∈ bs, b < 256 := fun b hb => (hbs b hb).1
  have hbsm : ∀ b ∈ bs, ¬ b = MSGSTARTSTOP := fun b hb => (hbs b hb).2
  have hrun := runBytes_of_drain s (endedState s (loc :: bs ++ [cx])) _
    (by simp) (drain_frame s loc bs cx hIdx hlocm hbsm hcxm hlen6)
  have hk0 : (endedState s (loc :: bs ++ [cx])).bChecksum > 0 := by
    show s.bIndex + 1 + (loc :: bs ++ [cx]).length - 1 > 0
    simp only [List.length_append, List.length_cons, List.length_nil]
    omega
  have hAB : ((subRange (endedState s (loc :: bs ++ [cx])).inData
      (endedState s (loc :: bs ++ [cx])).bChecksum) % 256).toNat
      = runningSubChecksum (loc :: bs) := by
    rw [bCalc_eq, endedState_codeBytes s loc bs cx hIdx hloc hbsLT]
  have hB := endedState_bCheck s loc bs cx hIdx hcx
  have hval : validateStep (endedState s (loc :: bs ++ [cx]))
      = ({ endedState s (loc :: bs ++ [cx]) with
            bStarted := false, bEnded := false, bIndex := 0, bChecksum := 0 }, true) := by
    rw [validateStep, if_pos ⟨rfl, rfl, hk0⟩, if_pos ?_]
    refine Or.inl (fun heq => hne ?_)
    have hinj := decToHex_inj _ _
      (by rw [hAB]; exact runningSubChecksum_lt _)
      (Nat.mod_lt _ (by omega)) heq
    rw [hAB, hB] at hinj
    exact hinj.symm
  have hproc : processStep { endedState s (loc :: bs ++ [cx]) with
      bStarted := false, bEnded := false, bIndex := 0, bChecksum := 0 }
      = ({ endedState s (loc :: bs ++ [cx]) with
            bStarted := false, bEnded := false, bIndex := 0, bChecksum := 0 }, none, []) := by
    rw [processStep, if_neg (by simp)]
  have hrb : runBytes s (126 :: loc :: bs ++ [cx, 126])
      = ⟨{ endedState s (loc :: bs ++ [cx]) with
            bStarted := false, bEnded := false, bIndex := 0, bChecksum := 0 }, [], []⟩ := by
    rw [hrun]
    show (⟨(processStep (validateStep (endedState s (loc :: bs ++ [cx]))).1).1,
          optFrames (processStep (validateStep (endedState s (loc :: bs ++ [cx]))).1).2.1,
          (processStep (validateStep (endedState s (loc :: bs ++ [cx]))).1).2.2⟩ : RunResult) = _
    rw [hval]
    show (⟨(processStep { endedState s (loc :: bs ++ [cx]) with
              bStarted := false, bEnded := false, bIndex := 0, bChecksum := 0 }).1,
          optFrames (processStep { endedState s (loc :: bs ++ [cx]) with
              bStarted := false, bEnded := false, bIndex := 0, bChecksum := 0 }).2.1,
          (processStep { endedState s (loc :: bs ++ [cx]) with
              bStarted := false, bEnded := false, bIndex := 0, bChecksum := 0 }).2.2⟩ : RunResult) = _
    rw [hproc]
    rfl
  refine ⟨?_, ?_, ?_, ?_⟩ <;> rw [hrb]

/-- C7 counterexample: `7E 31 01 02 03 C9 00 7E` is a well-formed frame
(checksum byte 0 = (-(0x31+1+2+3+0xC9)) mod 256; feeding it emits one
frame).  Replacing its checksum byte 0 by the marker byte 0x7E gives
`7E 31 01 02 03 C9 7E 7E` — and feeding THAT also emits a frame (the
early end marker makes byte 0xC9 the checksum, which happens to match
the running subtraction over `31 01 02 03`), and afterwards the decoder
is NOT Idle: the trailing marker has begun a new capture
(`bStarted = true`, buffer no longer empty).  So "replaced by any other
byte value → no frame and back to Idle" fails for marker-valued
corruption. -/
theorem hrv_C7_counterexample :
    (runBytes hrvInit [126, 49, 1, 2, 3, 201, 0, 126]).frames.length = 1
    ∧ (runBytes hrvInit [126, 49, 1, 2, 3, 201, 126, 126]).frames.length = 1
    ∧ (runBytes hrvInit [126, 49, 1, 2, 3, 201, 126, 126]).state.bStarted = true
    ∧ (runBytes hrvInit [126, 49, 1, 2, 3, 201, 126, 126]).state.bIndex = 1 := by
  decide

/-- Witness for `hrv_C7_amended`: the same well-formed frame with its
checksum byte 0 replaced by the non-marker byte 5 emits nothing and
leaves the decoder Idle. -/
theorem hrv_C7_witness :
    (runBytes hrvInit [126, 49, 1, 2, 3, 201, 5, 126]).frames = []
    ∧ (runBytes hrvInit [126, 49, 1, 2, 3, 201, 5, 126]).state.bStarted = false
    ∧ (runBytes hrvInit [126, 49, 1, 2, 3, 201, 5, 126]).state.bEnded = false
    ∧ (runBytes hrvInit [126, 49, 1, 2, 3, 201, 5, 126]).state.bIndex = 0 :=
  hrv_C7_amended hrvInit 49 [1, 2, 3, 201] 5 (by decide) (by decide) (by decide)
    (by decide) (by decide) (by decide) (by decide) (by decide) (by decide)

/-! ## SendMQTTMessage characterisation -/

/-- Publishing leaves the frame's location unchanged. -/
lemma sendMQTT_eTempLoc (s : HState) : (SendMQTTMessage s true).1.eTempLoc = s.eTempLoc := by
  simp only [SendMQTTMessage, tempStep, controlStep, fanStep]
  split_ifs <;> rfl

/-- Publishing leaves the fan-speed global unchanged. -/
lemma sendMQTT_iFanSpeed (s : HState) : (SendMQTTMessage s true).1.iFanSpeed = s.iFanSpeed := by
  simp only [SendMQTTMessage, tempStep, controlStep, fanStep]
  split_ifs <;> rfl

/-- Publishing leaves the control-temperature global unchanged. -/
lemma sendMQTT_iHRVControlTemp (s : HState) :
    (SendMQTTMessage s true).1.iHRVControlTemp = s.iHRVControlTemp := by
  simp only [SendMQTTMessage, tempStep, controlStep, fanStep]
  split_ifs <;> rfl

/-- After `SendMQTTMessage`, the last published control temperature
always equals the current control temperature: the branch of line 441
either fires and assigns it, or was skipped because they were already
equal (and the sentinel was clear). -/
lemma sendMQTT_lastControl (s : HState) :
    (SendMQTTMessage s true).1.iHRVLastControl = s.iHRVControlTemp := by
  simp only [SendMQTTMessage, tempStep, controlStep, fanStep]
  split_ifs <;> simp_all

/-- After `SendMQTTMessage`, the last published fan speed always equals
the current fan speed (line 457, or the skipped branch implies they
were equal). -/
lemma sendMQTT_lastFan (s : HState) :
    (SendMQTTMessage s true).1.iHRVLastFanSpeed = s.iFanSpeed := by
  simp only [SendMQTTMessage, tempStep, controlStep, fanStep]
  split_ifs <;> simp_all

/-- After `SendMQTTMessage` on a House frame, the last published house
temperature equals the rounded current temperature. -/
lemma sendMQTT_lastHouse (s : HState) (h : s.eTempLoc = HRVHOUSE) :
    (SendMQTTMessage s true).1.fHRVLastHouse = roundedTemp s.fHRVTemp := by
  simp only [SendMQTTMessage, tempStep, controlStep, fanStep]
  split_ifs <;> simp_all

/-- Publishing on a non-House frame leaves the last published
house temperature unchanged. -/
lemma sendMQTT_lastHouse_ne (s : HState) (h : ¬ s.eTempLoc = HRVHOUSE) :
    (SendMQTTMessage s true).1.fHRVLastHouse = s.fHRVLastHouse := by
  simp only [SendMQTTMessage, tempStep, controlStep, fanStep]
  split_ifs <;> simp_all

/-- After `SendMQTTMessage` on a Roof frame, the last published roof
temperature equals the rounded current temperature. -/
lemma sendMQTT_lastRoof (s : HState) (h : s.eTempLoc = HRVROOF) :
    (SendMQTTMessage s true).1.fHRVLastRoof = roundedTemp s.fHRVTemp := by
  have h49 : ¬ s.eTempLoc = HRVHOUSE := by
    rw [h]
    decide
  simp only [SendMQTTMessage, tempStep, controlStep, fanStep]
  split_ifs <;> simp_all

/-- Publishing on a non-Roof frame leaves the last published
roof temperature unchanged. -/
lemma sendMQTT_lastRoof_ne (s : HState) (h : ¬ s.eTempLoc = HRVROOF) :
    (SendMQTTMessage s true).1.fHRVLastRoof = s.fHRVLastRoof := by
  simp only [SendMQTTMessage, tempStep, controlStep, fanStep]
  split_ifs <;> simp_all

/-- The temperature block publishes nothing when the rounded value
matches the stored one for the frame's location. -/
lemma tempStep_nochange (s : HState)
    (h1 : s.eTempLoc = HRVHOUSE → s.fHRVTemp = s.fHRVLastHouse)
    (h2 : s.eTempLoc = HRVROOF → s.fHRVTemp = s.fHRVLastRoof) :
    tempStep s = (s, []) := by
  rw [tempStep]
  by_cases hh : s.eTempLoc = HRVHOUSE
  · rw [if_pos hh, if_neg (by rw [h1 hh]; exact fun hx => hx rfl)]
  · rw [if_neg hh]
    by_cases hr : s.eTempLoc = HRVROOF
    · rw [if_pos hr, if_neg (by rw [h2 hr]; exact fun hx => hx rfl)]
    · rw [if_neg hr]

/-- The control block publishes nothing when the control temperature is
unchanged and the fan sentinel is clear. -/
lemma controlStep_nochange (s : HState)
    (h1 : s.iHRVControlTemp = s.iHRVLastControl) (h2 : ¬ s.iHRVLastFanSpeed = 255) :
    controlStep s = (s, []) := by
  rw [controlStep, if_neg (by push_neg; exact ⟨h1, h2⟩)]

/-- The fan block publishes nothing when nothing changed. -/
lemma fanStep_nochange (s : HState)
    (h1 : s.iFanSpeed = s.iHRVLastFanSpeed)
    (h2 : s.iHRVControlTemp = s.iHRVLastControl)
    (h3 : s.eTempLoc = HRVROOF → s.fHRVTemp = s.fHRVLastRoof)
    (h4 : s.eTempLoc = HRVHOUSE → s.fHRVTemp = s.fHRVLastHouse) :
    fanStep s = (s, []) := by
  rw [fanStep, if_neg ?_]
  push_neg
  exact ⟨h1, h2, h3, h4⟩

/-- Nothing is published when the state already reflects
the frame: rounded temperature stored for the frame's location, control
temperature stored, fan speed stored and not the 255 sentinel. -/
lemma sendMQTT_nochange (w : HState)
    (h1 : w.eTempLoc = HRVHOUSE → roundedTemp w.fHRVTemp = w.fHRVLastHouse)
    (h2 : w.eTempLoc = HRVROOF → roundedTemp w.fHRVTemp = w.fHRVLastRoof)
    (h3 : w.iHRVControlTemp = w.iHRVLastControl) (h4 : ¬ w.iHRVLastFanSpeed = 255)
    (h5 : w.iFanSpeed = w.iHRVLastFanSpeed) :
    (SendMQTTMessage w true).2 = [] := by
  have hv1 : tempStep { w with fHRVTemp := roundedTemp w.fHRVTemp }
      = ({ w with fHRVTemp := roundedTemp w.fHRVTemp }, []) :=
    tempStep_nochange _ (fun h => h1 h) (fun h => h2 h)
  have hv2 : controlStep { w with fHRVTemp := roundedTemp w.fHRVTemp }
      = ({ w with fHRVTemp := roundedTemp w.fHRVTemp }, []) :=
    controlStep_nochange _ h3 h4
  have hv3 : fanStep { w with fHRVTemp := roundedTemp w.fHRVTemp }
      = ({ w with fHRVTemp := roundedTemp w.fHRVTemp }, []) :=
    fanStep_nochange _ h5 h3 (fun h => h2 h) (fun h => h1 h)
  simp only [SendMQTTMessage, eq_self_iff_true, if_true, hv1, hv2, hv3,
    List.append_nil, List.nil_append]

/-! ## Claim C5 -/

/-- C5, corrected (amended form): while the broker is up, if the fan
speed carried by the state is NOT 255 (the never-published sentinel),
then processing the same frame twice in a row publishes nothing the
second time.  The second processing is `SendMQTTMessage` on the state
left by the first one with `fHRVTemp` re-set by field extraction to the
same raw temperature (the loop recomputes it from the identical frame
bytes; the location, fan and control globals are re-assigned the
identical values, which is the identity). -/
theorem hrv_C5_amended (s : HState) (hfan : ¬ s.iFanSpeed = 255) :
    (SendMQTTMessage { (SendMQTTMessage s true).1 with fHRVTemp := s.fHRVTemp } true).2
      = [] := by
  refine sendMQTT_nochange _ ?_ ?_ ?_ ?_ ?_
  · intro h
    have hloc : s.eTempLoc = HRVHOUSE := by
      rw [← sendMQTT_eTempLoc s]
      exact h
    show roundedTemp s.fHRVTemp = (SendMQTTMessage s true).1.fHRVLastHouse
    rw [sendMQTT_lastHouse s hloc]
  · intro h
    have hloc : s.eTempLoc = HRVROOF := by
      rw [← sendMQTT_eTempLoc s]
      exact h
    show roundedTemp s.fHRVTemp = (SendMQTTMessage s true).1.fHRVLastRoof
    rw [sendMQTT_lastRoof s hloc]
  · show (SendMQTTMessage s true).1.iHRVControlTemp = (SendMQTTMessage s true).1.iHRVLastControl
    rw [sendMQTT_iHRVControlTemp, sendMQTT_lastControl]
  · show ¬ (SendMQTTMessage s true).1.iHRVLastFanSpeed = 255
    rw [sendMQTT_lastFan]
    exact hfan
  · show (SendMQTTMessage s true).1.iFanSpeed = (SendMQTTMessage s true).1.iHRVLastFanSpeed
    rw [sendMQTT_iFanSpeed, sendMQTT_lastFan]

/-- C5 counterexample: a decoder-emitted House frame CAN carry the fan
byte 255 (`7E 31 02 80 FF 14 3A 7E` validates), and then the claim
fails: feeding the identical frame twice, the first run publishes house
temperature, control temperature and fan status, and the SECOND
identical frame still publishes the control temperature — because the
first frame set `iHRVLastFanSpeed` to 255, which the line-441 branch
cannot distinguish from the forced-resend sentinel. -/
theorem hrv_C5_counterexample :
    (runBytes hrvInit [126, 49, 2, 128, 255, 20, 58, 126]).frames = [⟨49, 640, 255, 20⟩]
    ∧ (runBytes (runBytes hrvInit [126, 49, 2, 128, 255, 20, 58, 126]).state
        [126, 49, 2, 128, 255, 20, 58, 126]).frames = [⟨49, 640, 255, 20⟩]
    ∧ (runBytes (runBytes hrvInit [126, 49, 2, 128, 255, 20, 58, 126]).state
        [126, 49, 2, 128, 255, 20, 58, 126]).pubs
        = [⟨Topic.controltemp, Payload.num 20⟩] := by
  decide

/-- Witness for `hrv_C5_amended` at a concrete House frame state with
fan speed 50. -/
theorem hrv_C5_witness :
    (SendMQTTMessage { (SendMQTTMessage { hrvInit with eTempLoc := 49, fHRVTemp := 640, iFanSpeed := 50, iHRVControlTemp := 20 } true).1 with fHRVTemp := 640 } true).2 = [] :=
  hrv_C5_amended { hrvInit with eTempLoc := 49, fHRVTemp := 640, iFanSpeed := 50, iHRVControlTemp := 20 } (by decide)

/-! ## Claim C4 -/

/-- C4, corrected (amended form): a checksum-valid frame whose location
byte is neither Roof nor House is NOT discarded — it is processed and
emitted (see the counterexample) — but it never produces a temperature
publish: no publish on the house-temperature or roof-temperature topic
results.  (The control-temperature and fan-status branches run
regardless of the location byte and may publish, as the counterexample
shows.) -/
theorem hrv_C4_amended (s : HState) (connected : Bool)
    (h48 : ¬ s.eTempLoc = HRVROOF) (h49 : ¬ s.eTempLoc = HRVHOUSE) :
    ¬ Topic.housetemp ∈ (SendMQTTMessage s connected).2.map Publish.topic
    ∧ ¬ Topic.rooftemp ∈ (SendMQTTMessage s connected).2.map Publish.topic := by
  cases connected with
  | false => simp [SendMQTTMessage]
  | true =>
    constructor <;>
      (simp only [SendMQTTMessage, tempStep, controlStep, fanStep]
       split_ifs <;> simp_all)

/-- C4 counterexample: after an MQTT reconnect, feeding the
checksum-valid frame `7E 32 02 80 32 14 06 7E` with the unknown
location byte `0x32` emits a frame (it is not discarded) and publishes
on two channels: the control-temperature topic (forced by the 255
sentinel) and the fan-status topic — refuting "discarded without
emitting a frame and without publishing anything". -/
theorem hrv_C4_counterexample :
    (runBytes (mqttReconnect hrvInit) [126, 50, 2, 128, 50, 20, 6, 126]).frames
      = [⟨50, 640, 0, 0⟩]
    ∧ (runBytes (mqttReconnect hrvInit) [126, 50, 2, 128, 50, 20, 6, 126]).pubs
      = [⟨Topic.controltemp, Payload.num 0⟩, ⟨Topic.fanspeed, Payload.text "Off"⟩] := by
  decide

/-- Witness for `hrv_C4_amended`: the publishes of a concrete
unknown-location frame state hit neither temperature topic. -/
theorem hrv_C4_witness :
    ¬ Topic.housetemp ∈ (SendMQTTMessage { mqttReconnect hrvInit with eTempLoc := 50 } true).2.map Publish.topic
    ∧ ¬ Topic.rooftemp ∈ (SendMQTTMessage { mqttReconnect hrvInit with eTempLoc := 50 } true).2.map Publish.topic :=
  hrv_C4_amended { mqttReconnect hrvInit with eTempLoc := 50 } true (by decide) (by decide)

/-! ## Claim C8 -/

/-- C8, corrected (amended form): processing a Roof-sourced frame never
publishes the house-temperature channel — among the temperature topics
it can publish at most the roof temperature.  (But contrary to the
original claim, the control-temperature and fan-status branches run for
Roof frames too and may publish and update their last-published state,
e.g. right after a reconnect: see the counterexample.) -/
theorem hrv_C8_amended (s : HState) (connected : Bool) (h : s.eTempLoc = HRVROOF) :
    ¬ Topic.housetemp ∈ (SendMQTTMessage s connected).2.map Publish.topic := by
  cases connected with
  | false => simp [SendMQTTMessage]
  | true =>
    have h49 : ¬ s.eTempLoc = HRVHOUSE := by
      rw [h]
      decide
    simp only [SendMQTTMessage, tempStep, controlStep, fanStep]
    split_ifs <;> simp_all

/-- C8 counterexample: right after an MQTT reconnect, the Roof frame
`7E 30 02 80 00 4E 7E` publishes not only the roof temperature but also
the control temperature and a fan-status message (computed from the
stale fan/control globals), and overwrites the last-published fan-speed
state (255 → 0) — refuting "never publishes control-temperature or
fan-speed and leaves their last-published state unchanged". -/
theorem hrv_C8_counterexample :
    (runBytes (mqttReconnect hrvInit) [126, 48, 2, 128, 0, 78, 126]).frames
      = [⟨48, 640, 0, 0⟩]
    ∧ (runBytes (mqttReconnect hrvInit) [126, 48, 2, 128, 0, 78, 126]).pubs
      = [⟨Topic.rooftemp, Payload.temp 640⟩, ⟨Topic.controltemp, Payload.num 0⟩,
         ⟨Topic.fanspeed, Payload.text "Off"⟩]
    ∧ (runBytes (mqttReconnect hrvInit) [126, 48, 2, 128, 0, 78, 126]).state.iHRVLastFanSpeed
      = 0 := by
  decide

/-- Witness for `hrv_C8_amended`: the publishes of a concrete Roof
frame state never hit the house channel. -/
theorem hrv_C8_witness :
    ¬ Topic.housetemp ∈ (SendMQTTMessage { mqttReconnect hrvInit with eTempLoc := 48, fHRVTemp := 640 } true).2.map Publish.topic :=
  hrv_C8_amended { mqttReconnect hrvInit with eTempLoc := 48, fHRVTemp := 640 } true
    (by decide)

/-! ## Claim C6 -/

set_option maxHeartbeats 2000000 in
/-- C6, corrected (amended form): right after a reconnect reset (all
last-published values at the sentinel 255), the next frame processed
while connected triggers the publishes the sentinel can force: the
control-temperature channel is ALWAYS published; the temperature
channel of the frame's location is published provided the rounded
temperature is not 255.0 degrees (`255 * 16` sixteenths); the
fan-status channel is published provided the fan speed is not 255.
When the reported value collides with the sentinel (rounded
temperature 255.0, or fan speed 255), that channel is NOT published —
see the counterexample. -/
theorem hrv_C6_amended (s : HState)
    (hr : s.fHRVLastRoof = 255 * 16) (hh : s.fHRVLastHouse = 255 * 16)
    (hc : s.iHRVLastControl = 255) (hf : s.iHRVLastFanSpeed = 255) :
    Topic.controltemp ∈ (SendMQTTMessage s true).2.map Publish.topic
    ∧ (s.eTempLoc = HRVHOUSE → ¬ roundedTemp s.fHRVTemp = 255 * 16 →
        Topic.housetemp ∈ (SendMQTTMessage s true).2.map Publish.topic)
    ∧ (s.eTempLoc = HRVROOF → ¬ roundedTemp s.fHRVTemp = 255 * 16 →
        Topic.rooftemp ∈ (SendMQTTMessage s true).2.map Publish.topic)
    ∧ (¬ s.iFanSpeed = 255 → Topic.fanspeed ∈ (SendMQTTMessage s true).2.map Publish.topic) := by
  refine ⟨?_, ?_, ?_, ?_⟩
  · simp only [SendMQTTMessage, tempStep, controlStep, fanStep]
    split_ifs <;> simp_all
  · intro hloc hne
    have h48 : ¬ s.eTempLoc = HRVROOF := by
      rw [hloc]
      decide
    simp only [SendMQTTMessage, tempStep, controlStep, fanStep]
    split_ifs <;> simp_all
  · intro hloc hne
    have h49 : ¬ s.eTempLoc = HRVHOUSE := by
      rw [hloc]
      decide
    simp only [SendMQTTMessage, tempStep, controlStep, fanStep]
    split_ifs <;> simp_all
  · intro hfne
    simp only [SendMQTTMessage, tempStep, controlStep, fanStep]
    split_ifs <;> simp_all

/-- C6 counterexample: right after a reconnect reset, the House frame
`7E 31 0F F0 32 14 8A 7E` reports house temperature 0x0FF0 = 4080
sixteenths = 255.0 degrees.  Processing it publishes the control
temperature and fan status but NOT the house temperature: the rounded
value 255.0 equals the forced-resend sentinel, so the claimed "at least
one publish for every channel the frame reports" fails on the
temperature channel. -/
theorem hrv_C6_counterexample :
    (runBytes (mqttReconnect hrvInit) [126, 49, 15, 240, 50, 20, 138, 126]).frames
      = [⟨49, 4080, 50, 20⟩]
    ∧ (runBytes (mqttReconnect hrvInit) [126, 49, 15, 240, 50, 20, 138, 126]).pubs
      = [⟨Topic.controltemp, Payload.num 20⟩, ⟨Topic.fanspeed, Payload.text "50%"⟩] := by
  decide

/-- Witness for `hrv_C6_amended` at a concrete post-reconnect House
frame state (40.0 degrees, fan 50, control 20): all three channels the
frame reports are published. -/
theorem hrv_C6_witness :
    Topic.controltemp ∈ (SendMQTTMessage { mqttReconnect hrvInit with eTempLoc := 49, fHRVTemp := 640, iFanSpeed := 50, iHRVControlTemp := 20 } true).2.map Publish.topic
    ∧ Topic.housetemp ∈ (SendMQTTMessage { mqttReconnect hrvInit with eTempLoc := 49, fHRVTemp := 640, iFanSpeed := 50, iHRVControlTemp := 20 } true).2.map Publish.topic
    ∧ Topic.fanspeed ∈ (SendMQTTMessage { mqttReconnect hrvInit with eTempLoc := 49, fHRVTemp := 640, iFanSpeed := 50, iHRVControlTemp := 20 } true).2.map Publish.topic :=
  ⟨(hrv_C6_amended { mqttReconnect hrvInit with eTempLoc := 49, fHRVTemp := 640, iFanSpeed := 50, iHRVControlTemp := 20 } (by decide) (by decide) (by decide) (by decide)).1,
   (hrv_C6_amended { mqttReconnect hrvInit with eTempLoc := 49, fHRVTemp := 640, iFanSpeed := 50, iHRVControlTemp := 20 } (by decide) (by decide) (by decide) (by decide)).2.1
     (by decide) (by decide),
   (hrv_C6_amended { mqttReconnect hrvInit with eTempLoc := 49, fHRVTemp := 640, iFanSpeed := 50, iHRVControlTemp := 20 } (by decide) (by decide) (by decide) (by decide)).2.2.2
     (by decide)⟩

/-! ## Claim C9 -/

/-- C9, confirmed: every fan-status publish carries exactly the
categorical payload `fanPayload` of the fan speed and the
last-published values in scope, and that mapping is as the spec states:
0 gives "Off" whatever the temperatures, 5 gives "Idle", 100 gives
"Full" suffixed with " (heating)" when last control temp ≥ last roof
temp and last roof temp > last house temp, with " (cooling)" when last
roof temp ≤ last control temp and last roof temp < last house temp, and
bare "Full" otherwise; any other speed n gives "n%".  Temperatures are
in sixteenths of a degree, so the spec's instance lastControl = 22,
lastRoof = 20, lastHouse = 18 is (22, 320, 288) and yields
"Full (heating)"; fan 0 gives "Off" regardless. -/
theorem hrv_C9_fanstatus (s : HState) (fan lastControl lastRoof lastHouse : Int) :
    (∀ p ∈ (fanStep s).2,
        p = ⟨Topic.fanspeed,
             Payload.text (fanPayload s.iFanSpeed s.iHRVLastControl s.fHRVLastRoof s.fHRVLastHouse)⟩)
    ∧ (fan = 0 → fanPayload fan lastControl lastRoof lastHouse = "Off")
    ∧ (fan = 5 → fanPayload fan lastControl lastRoof lastHouse = "Idle")
    ∧ (fan = 100 → 16 * lastControl ≥ lastRoof → lastRoof > lastHouse →
        fanPayload fan lastControl lastRoof lastHouse = "Full (heating)")
    ∧ (fan = 100 → lastRoof ≤ 16 * lastControl → lastRoof < lastHouse →
        fanPayload fan lastControl lastRoof lastHouse = "Full (cooling)")
    ∧ (¬ fan = 0 → ¬ fan = 5 → ¬ fan = 100 →
        fanPayload fan lastControl lastRoof lastHouse = toString fan ++ "%")
    ∧ fanPayload 100 22 (20 * 16) (18 * 16) = "Full (heating)"
    ∧ fanPayload 0 22 (20 * 16) (18 * 16) = "Off" := by
  refine ⟨?_, ?_, ?_, ?_, ?_, ?_, by decide, by decide⟩
  · intro p hp
    rw [fanStep] at hp
    split_ifs at hp
    · simp only [List.mem_singleton] at hp
      exact hp
    · simp at hp
  · intro h
    rw [h, fanPayload, if_pos rfl]
  · intro h
    rw [h, fanPayload, if_neg (by omega), if_pos rfl]
  · intro h hge hgt
    rw [h, fanPayload, if_neg (by omega), if_neg (by omega), if_pos rfl, if_pos ⟨hge, hgt⟩]
  · intro h hle hlt
    rw [h, fanPayload, if_neg (by omega), if_neg (by omega), if_pos rfl,
      if_neg (by intro hand; exact absurd hand.2 (by omega)), if_pos ⟨hle, hlt⟩]
  · intro h0 h5 h100
    rw [fanPayload, if_neg h0, if_neg h5, if_neg h100]

/-- Witness for `hrv_C9_fanstatus`: the spec's two concrete instances,
obtained from the theorem's case clauses. -/
theorem hrv_C9_witness :
    fanPayload 100 22 (20 * 16) (18 * 16) = "Full (heating)"
    ∧ fanPayload 0 22 (20 * 16) (18 * 16) = "Off" :=
  ⟨(hrv_C9_fanstatus hrvInit 100 22 (20 * 16) (18 * 16)).2.2.2.1 rfl (by decide) (by decide),
   (hrv_C9_fanstatus hrvInit 0 22 (20 * 16) (18 * 16)).2.1 rfl⟩
